import Mathlib

/-!
Verification of the name-constraint policy engine (policy/options.go), the
management error type (authority/mgmt/errors.go) and the NoSQL provisioner
store (authority/mgmt/db/nosql/provisioner.go).

Strings are embedded as `List Char` (Go strings are byte sequences; all the
inputs exercised here are ASCII, where bytes and runes coincide).  A Go
function that can return an error is embedded as a `GoResult`; the
`panicked` constructor records a run-time panic (out-of-range indexing).
-/

set_option maxHeartbeats 1000000
set_option maxRecDepth 4096

/-- Outcome of a fallible Go computation: a value, a returned error
(carrying the formatted message), or a run-time panic. -/
inductive GoResult (α : Type) where
  | ok (val : α)
  | error (msg : List Char)
  | panicked
deriving DecidableEq

/-- ASCII lower-casing of one character, as `strings.ToLower` acts on the
ASCII range.  Go also lowercases non-ASCII letters; non-ASCII input is
rejected by the IDNA model below, so the ASCII fragment is the relevant one. -/
def goToLowerChar (c : Char) : Char :=
  match c with
  | 'A' => 'a' | 'B' => 'b' | 'C' => 'c' | 'D' => 'd' | 'E' => 'e' | 'F' => 'f'
  | 'G' => 'g' | 'H' => 'h' | 'I' => 'i' | 'J' => 'j' | 'K' => 'k' | 'L' => 'l'
  | 'M' => 'm' | 'N' => 'n' | 'O' => 'o' | 'P' => 'p' | 'Q' => 'q' | 'R' => 'r'
  | 'S' => 's' | 'T' => 't' | 'U' => 'u' | 'V' => 'v' | 'W' => 'w' | 'X' => 'x'
  | 'Y' => 'y' | 'Z' => 'z'
  | c => c

/-- `strings.ToLower`. -/
def goToLower (s : List Char) : List Char := s.map goToLowerChar

/-- `unicode.IsSpace` on the characters `strings.TrimSpace` trims
(space, tab, newline, vertical tab, form feed, carriage return, NEL, NBSP). -/
def goIsSpace (c : Char) : Bool :=
  match c with
  | ' ' | '\t' | '\n' | '\r' => true
  | c => decide (c = Char.ofNat 11) || decide (c = Char.ofNat 12) ||
         decide (c = Char.ofNat 133) || decide (c = Char.ofNat 160)

/-- `strings.TrimSpace`: drop leading and trailing white space. -/
def goTrimSpace (s : List Char) : List Char :=
  ((s.dropWhile goIsSpace).reverse.dropWhile goIsSpace).reverse

/-- `strings.HasPrefix`. -/
def goStartsWith : List Char → List Char → Bool
  | _, [] => true
  | [], _ :: _ => false
  | a :: s, b :: p => a = b && goStartsWith s p

/-- `strings.Contains` (substring containment). -/
def goContains : List Char → List Char → Bool
  | [], sub => sub.isEmpty
  | a :: s, sub => goStartsWith (a :: s) sub || goContains s sub

/-- `strings.Count` with a one-character substring: number of occurrences. -/
def goCount (s : List Char) (c : Char) : Nat := s.countP (fun x => x == c)

/-- `strings.LastIndex` with a one-character substring: index of the last
occurrence, `-1` when absent. -/
def goLastIndexChar : List Char → Char → Int
  | [], _ => -1
  | a :: s, c =>
    let r := goLastIndexChar s c
    if 0 ≤ r then r + 1 else if a = c then 0 else -1

/-- `strings.Split` on a one-character separator. -/
def goSplitOn (c : Char) : List Char → List (List Char)
  | [] => [[]]
  | a :: s =>
    match goSplitOn c s with
    | [] => [[a]]
    | x :: xs => if a = c then [] :: x :: xs else (a :: x) :: xs

/-- Go `%q` formatting of a string (no escaping is needed for the inputs
appearing in this development). -/
def goQuote (s : List Char) : List Char := '"' :: (s ++ ['"'])

/-- Characters the IDNA model accepts: lowercase ASCII letters, digits,
`.`, `-` and `_` (the `idna.Lookup` profile maps to lowercase and uses
strict domain-name checking, which admits letters, digits, hyphen and
underscore). -/
def idnaAllowedChar (c : Char) : Bool :=
  (decide ('a' ≤ c) && decide (c ≤ 'z')) ||
  (decide ('0' ≤ c) && decide (c ≤ '9')) ||
  c == '.' || c == '-' || c == '_'

/-- Modelled from the spec: RFC 5891 IDNA "to-ASCII" transcoding, the
`idna.Lookup.ToASCII` function of golang.org/x/net, which is not part of
this repository.  On ASCII input the Lookup profile validates the
characters and returns the (already lowercase) string unchanged; it does
not reject empty labels (the profile does not verify DNS length).  The
model returns an ASCII string of valid characters unchanged and reports a
conversion error otherwise; Punycode encoding of non-ASCII labels is
outside the model. -/
def idnaLookupToASCII (s : List Char) : GoResult (List Char) :=
  if s.all idnaAllowedChar then .ok s else .error ("idna: disallowed rune".toList)

/-- Drop the first label when it is empty (the right-to-left loop of the
label parser absorbs a leading dot). -/
def dropLeadingEmptyLabel : List (List Char) → List (List Char)
  | [] => []
  | p :: rest => if p.isEmpty then rest else p :: rest

/-- Modelled from the spec: `domainToReverseLabels`, the label parser the
policy package vendors from crypto/x509 (not present under src/).  It
splits the string on `.` from the right into a reversed label list; a
leading dot of the input is absorbed by the loop, and any other empty
label (consecutive dots, a trailing dot, or a bare dot) is a parse
failure. -/
def domainToReverseLabels (domain : List Char) : Option (List (List Char)) :=
  let rl := (dropLeadingEmptyLabel (goSplitOn '.' domain)).reverse
  if rl.any (fun l => l.isEmpty) then none else some rl

/-- RFC 2821 atext characters (the specials are given by character code;
codes 33,35-39,42,43,45,47,61,63,94-96,123-126). -/
def atextChar (c : Char) : Bool :=
  (decide ('a' ≤ c) && decide (c ≤ 'z')) ||
  (decide ('A' ≤ c) && decide (c ≤ 'Z')) ||
  (decide ('0' ≤ c) && decide (c ≤ '9')) ||
  [33, 35, 36, 37, 38, 39, 42, 43, 45, 47, 61, 63, 94, 95, 96, 123, 124, 125, 126].contains c.toNat

/-- Dot-atom local part: non-empty atoms of atext characters separated by
single dots. -/
def validLocalPart (l : List Char) : Bool :=
  !l.isEmpty &&
  l.all (fun c => atextChar c || c == '.') &&
  !(goStartsWith l ['.']) &&
  !(goStartsWith l.reverse ['.']) &&
  !(goContains l ['.', '.'])

/-- An RFC 2821 mailbox split into its two parts (the Go struct fields are
named `local` and `domain`; `local` is a reserved word here). -/
structure Mailbox where
  localPart : List Char
  domainPart : List Char
deriving DecidableEq

/-- Modelled from the spec: `parseRFC2821Mailbox`, vendored from
crypto/x509 (not present under src/): split a mailbox into local part and
domain at the `@` following the RFC 2821 grammar.  The model implements
the unquoted dot-atom local-part form and requires a non-empty domain;
quoted-string local parts are outside the model. -/
def parseRFC2821Mailbox (s : List Char) : Option Mailbox :=
  let l := s.takeWhile (fun c => c != '@')
  match s.drop l.length with
  | [] => none
  | _ :: d => if validLocalPart l && !d.isEmpty then some ⟨l, d⟩ else none

/-- The local part of a mailbox string: everything before the first `@`. -/
def localPartOf (s : List Char) : List Char := s.takeWhile (fun c => c != '@')

/-- `normalizeAndValidateDNSDomainConstraint` (policy/options.go:594-619).
The Go expression `normalizedConstraint[0] == '*' && normalizedConstraint[1] != '.'`
indexes position 1 whenever position 0 holds `*`; on the one-character
string `*` that access is out of range, which is the `panicked` branch. -/
def normalizeAndValidateDNSDomainConstraint (constraint : List Char) : GoResult (List Char) :=
  let n0 := goToLower (goTrimSpace constraint)
  if n0.isEmpty then
    .error ("contraint ".toList ++ goQuote constraint ++ " can not be empty or white space string".toList)
  else if goContains n0 ['.', '.'] then
    .error ("domain constraint ".toList ++ goQuote constraint ++ " cannot have empty labels".toList)
  else if n0.head? = some '*' ∧ n0.length = 1 then
    .panicked
  else if n0.head? = some '*' ∧ n0.get? 1 ≠ some '.' then
    .error ("wildcard character in domain constraint ".toList ++ goQuote constraint ++ " can only be used to match (full) labels".toList)
  else if 0 < goLastIndexChar n0 '*' then
    .error ("domain constraint ".toList ++ goQuote constraint ++ " can only have wildcard as starting character".toList)
  else
    let n1 := if goStartsWith n0 ['*', '.'] then n0.drop 1 else n0
    match idnaLookupToASCII n1 with
    | .error m => .error ("domain constraint ".toList ++ goQuote constraint ++ " can not be converted to ASCII: ".toList ++ m)
    | .panicked => .panicked
    | .ok n2 =>
      if (domainToReverseLabels n2).isSome then .ok n2
      else .error ("cannot parse domain constraint ".toList ++ goQuote constraint)

/-- `normalizeAndValidateEmailConstraint` (policy/options.go:621-662).
After a leading `@` is stripped, Go evaluates `normalizedConstraint[0]`;
on the one-character string `@` the remainder is empty and the access is
out of range, which is the `panicked` branch. -/
def normalizeAndValidateEmailConstraint (constraint : List Char) : GoResult (List Char) :=
  let n0 := goToLower (goTrimSpace constraint)
  if n0.isEmpty then
    .error ("email contraint ".toList ++ goQuote constraint ++ " can not be empty or white space string".toList)
  else if goContains n0 ['*'] then
    .error ("email constraint ".toList ++ goQuote constraint ++ " cannot contain asterisk wildcard".toList)
  else if 1 < goCount n0 '@' then
    .error ("email constraint ".toList ++ goQuote constraint ++ " contains too many @ characters".toList)
  else
    let n1 := if n0.head? = some '@' then n0.drop 1 else n0
    match n1 with
    | [] => .panicked
    | c :: _ =>
      if c = '.' then
        .error ("email constraint ".toList ++ goQuote constraint ++ " cannot start with period".toList)
      else if goContains n1 ['@'] then
        match parseRFC2821Mailbox n1 with
        | none => .error ("cannot parse email constraint ".toList ++ goQuote constraint ++ " as RFC 2821 mailbox".toList)
        | some mb =>
          match idnaLookupToASCII mb.domainPart with
          | .error m => .error ("email constraint ".toList ++ goQuote constraint ++ " domain part ".toList ++ goQuote mb.domainPart ++ " cannot be converted to ASCII: ".toList ++ m)
          | .panicked => .panicked
          | .ok dA =>
            let n2 := mb.localPart ++ '@' :: dA
            if (domainToReverseLabels n2).isSome then .ok n2
            else .error ("cannot parse email domain constraint ".toList ++ goQuote constraint)
      else
        match idnaLookupToASCII n1 with
        | .error m => .error ("email constraint ".toList ++ goQuote constraint ++ " cannot be converted to ASCII: ".toList ++ m)
        | .panicked => .panicked
        | .ok n2 =>
          if (domainToReverseLabels n2).isSome then .ok n2
          else .error ("cannot parse email domain constraint ".toList ++ goQuote constraint)

/-- Modelled from the spec: `net.SplitHostPort` applied to a bracket-free
string (the caller rejects `[` and `]` beforehand): the split succeeds
exactly when the string contains a single colon. -/
def splitHostPortSucceeds (s : List Char) : Bool := goCount s ':' == 1

/-- A run of decimal digits (non-empty). -/
def allDigits (s : List Char) : Bool :=
  !s.isEmpty && s.all (fun c => decide ('0' ≤ c) && decide (c ≤ '9'))

/-- Value of a run of decimal digits. -/
def digitsToNat (s : List Char) : Nat :=
  s.foldl (fun acc c => acc * 10 + (c.toNat - 48)) 0

/-- One dotted-quad field: decimal digits with value at most 255 (leading
zeros are accepted, as Go did before 1.17). -/
def parseIPv4Field (s : List Char) : Option Nat :=
  if allDigits s then
    let v := digitsToNat s
    if v ≤ 255 then some v else none
  else none

/-- The 16-byte IPv4-in-IPv6 form Go produces for a parsed IPv4 address. -/
def v4Mapped (a b c d : Nat) : List Nat :=
  [0, 0, 0, 0, 0, 0, 0, 0, 0, 0, 255, 255, a, b, c, d]

/-- Modelled from the spec: `net.ParseIP` (standard address parsing, not
part of this repository).  The model implements the dotted-quad IPv4 form
and returns Go's 16-byte IPv4-in-IPv6 representation; IPv6 colon-hex
forms are outside the model and are treated as unparseable. -/
def goParseIP (s : List Char) : Option (List Nat) :=
  match goSplitOn '.' s with
  | [a, b, c, d] =>
    match parseIPv4Field a, parseIPv4Field b, parseIPv4Field c, parseIPv4Field d with
    | some x, some y, some z, some w => some (v4Mapped x y z w)
    | _, _, _, _ => none
  | _ => none

/-- `IP.To4`: the 4-byte form of an address, when it is IPv4. -/
def ipTo4 (ip : List Nat) : Option (List Nat) :=
  if ip.length = 4 then some ip
  else if ip.length = 16 ∧ ip.take 10 = List.replicate 10 0 ∧ ip.get? 10 = some 255 ∧ ip.get? 11 = some 255 then
    some (ip.drop 12)
  else none

/-- `isIPv4` (policy/options.go:590-592): `ip.To4() != nil`. -/
def isIPv4 (ip : List Nat) : Bool := (ipTo4 ip).isSome

/-- Value of one byte of a CIDR mask with `n` leading one bits (`n ≤ 8`). -/
def maskByte (n : Nat) : Nat := 256 - 2 ^ (8 - n)

/-- `net.CIDRMask ones bits` as a byte list. -/
def cidrMask (ones bits : Nat) : List Nat :=
  (List.range (bits / 8)).map (fun i => maskByte (min 8 (ones - min ones (8 * i))))

/-- An IP network: base address bytes and mask bytes (`net.IPNet`). -/
structure IPNet where
  ip : List Nat
  mask : List Nat
deriving DecidableEq

/-- `networkFor` (policy/options.go:576-588): widen a host address to a
host-only network, `/32` when the address is IPv4 and `/128` otherwise. -/
def networkFor (ip : List Nat) : IPNet :=
  if !isIPv4 ip then ⟨ip, cidrMask 128 128⟩ else ⟨ip, cidrMask 32 32⟩

/-- Decimal number (used for the prefix length of a CIDR). -/
def parseDecimal (s : List Char) : Option Nat :=
  if allDigits s then some (digitsToNat s) else none

/-- Modelled from the spec: `net.ParseCIDR` (standard address parsing, not
part of this repository) restricted to IPv4 CIDRs, matching the IPv4-only
`goParseIP` model: address and prefix length split at the first `/`, and
the returned network is the masked 4-byte base address together with the
mask, as Go returns it. -/
def goParseCIDR (s : List Char) : Option IPNet :=
  let addr := s.takeWhile (fun c => c != '/')
  match s.drop addr.length with
  | [] => none
  | _ :: maskStr =>
    match goParseIP addr, parseDecimal maskStr with
    | some ip, some n =>
      if n ≤ 32 then
        match ipTo4 ip with
        | some ip4 => some ⟨List.zipWith (fun a b => a.land b) ip4 (cidrMask n 32), cidrMask n 32⟩
        | none => none
      else none
    | _, _ => none

/-- `normalizeAndValidateURIDomainConstraint` (policy/options.go:664-700). -/
def normalizeAndValidateURIDomainConstraint (constraint : List Char) : GoResult (List Char) :=
  let n0 := goToLower (goTrimSpace constraint)
  if n0.isEmpty then
    .error ("URI domain contraint ".toList ++ goQuote constraint ++ " cannot be empty or white space string".toList)
  else if goContains n0 ['.', '.'] then
    .error ("URI domain constraint ".toList ++ goQuote constraint ++ " cannot have empty labels".toList)
  else
    let n1 := if goStartsWith n0 ['*', '.'] then n0.drop 1 else n0
    if goContains n1 ['*'] then
      .error ("URI domain constraint ".toList ++ goQuote constraint ++ " can only have wildcard as starting character".toList)
    else if goContains n1 ['['] || goContains n1 [']'] then
      .error ("URI domain constraint ".toList ++ goQuote constraint ++ " contains invalid square brackets".toList)
    else if splitHostPortSucceeds n1 then
      .error ("URI domain constraint ".toList ++ goQuote constraint ++ " cannot contain port".toList)
    else if (goParseIP n1).isSome then
      .error ("URI domain constraint ".toList ++ goQuote constraint ++ " cannot be an IP".toList)
    else
      match idnaLookupToASCII n1 with
      | .error m => .error ("URI domain constraint ".toList ++ goQuote constraint ++ " cannot be converted to ASCII: ".toList ++ m)
      | .panicked => .panicked
      | .ok n2 =>
        if (domainToReverseLabels n2).isSome then .ok n2
        else .error ("cannot parse URI domain constraint ".toList ++ goQuote constraint)

/-- The policy engine configuration object (`NamePolicyEngine`), with the
fields the configuration options of policy/options.go touch. -/
structure NamePolicyEngine where
  verifySubjectCommonName : Bool
  allowLiteralWildcardNames : Bool
  permittedDNSDomains : List (List Char)
  excludedDNSDomains : List (List Char)
  permittedIPRanges : List IPNet
  excludedIPRanges : List IPNet
  permittedEmailAddresses : List (List Char)
  excludedEmailAddresses : List (List Char)
  permittedURIDomains : List (List Char)
  excludedURIDomains : List (List Char)
  permittedPrincipals : List (List Char)
  excludedPrincipals : List (List Char)
deriving DecidableEq

/-- The zero-valued engine a configuration sequence starts from. -/
def emptyEngine : NamePolicyEngine :=
  ⟨false, false, [], [], [], [], [], [], [], [], [], []⟩

/-- Outcome of one configuration option applied to an engine: normal
return (`done`), an error return together with the engine state at the
return (`failed`), or a propagated panic. -/
inductive OpResult where
  | done (e : NamePolicyEngine)
  | failed (e : NamePolicyEngine) (msg : List Char)
  | panicked
deriving DecidableEq

/-- The engine state observable after the option ran, when it did not panic. -/
def resultEngine : OpResult → Option NamePolicyEngine
  | .done e => some e
  | .failed e _ => some e
  | .panicked => none

/-- The per-element loop the multi-value options share: normalize every
element into a fresh slice, stopping at the first failure with the
option's error message for that element (`mkErr` receives the element and
the normalizer's own message). -/
def normalizeEach {α : Type} (f : List Char → GoResult α)
    (mkErr : List Char → List Char → List Char) : List (List Char) → GoResult (List α)
  | [] => .ok []
  | x :: xs =>
    match f x with
    | .panicked => .panicked
    | .error m => .error (mkErr x m)
    | .ok v =>
      match normalizeEach f mkErr xs with
      | .panicked => .panicked
      | .error m => .error m
      | .ok vs => .ok (v :: vs)

/-- The message every one of the eight DNS-domain options formats,
`"cannot parse permitted domain constraint %q"` — including the four
excluded-domain options (policy/options.go:66, 81, 116, 127). -/
def cannotParseDomainConstraintMsg (d : List Char) : List Char :=
  "cannot parse permitted domain constraint ".toList ++ goQuote d

def permittedCIDRMsg (c : List Char) : List Char :=
  "cannot parse permitted CIDR constraint ".toList ++ goQuote c

def excludedCIDRMsg (c : List Char) : List Char :=
  "cannot parse excluded CIDR constraint ".toList ++ goQuote c

def permittedIPorCIDRMsg (x : List Char) : List Char :=
  "cannot parse permitted constraint ".toList ++ goQuote x ++ " as IP nor CIDR".toList

def excludedIPorCIDRMsg (x : List Char) : List Char :=
  "cannot parse excluded constraint ".toList ++ goQuote x ++ " as IP nor CIDR".toList

/-- One element of a CIDR-list option: `net.ParseCIDR` with the failure
signalled to the surrounding loop (the message is chosen there). -/
def cidrToResult (c : List Char) : GoResult IPNet :=
  match goParseCIDR c with
  | some nw => .ok nw
  | none => .error []

/-- One element of an IPs-or-CIDRs option: try `net.ParseCIDR`, then
`net.ParseIP` widened by `networkFor` (policy/options.go:211-219). -/
def ipOrCIDRToResult (x : List Char) : GoResult IPNet :=
  match goParseCIDR x with
  | some nw => .ok nw
  | none =>
    match goParseIP x with
    | some ip => .ok (networkFor ip)
    | none => .error []

/-- `WithSubjectCommonNameVerification` (policy/options.go:16-21). -/
def WithSubjectCommonNameVerification (e : NamePolicyEngine) : OpResult :=
  .done { e with verifySubjectCommonName := true }

/-- `WithAllowLiteralWildcardNames` (policy/options.go:23-28). -/
def WithAllowLiteralWildcardNames (e : NamePolicyEngine) : OpResult :=
  .done { e with allowLiteralWildcardNames := true }

/-- `WithPermittedDNSDomains` (policy/options.go:30-43). -/
def WithPermittedDNSDomains (domains : List (List Char)) (e : NamePolicyEngine) : OpResult :=
  match normalizeEach normalizeAndValidateDNSDomainConstraint (fun d _ => cannotParseDomainConstraintMsg d) domains with
  | .panicked => .panicked
  | .error m => .failed e m
  | .ok ds => .done { e with permittedDNSDomains := ds }

/-- `AddPermittedDNSDomains` (policy/options.go:45-58). -/
def AddPermittedDNSDomains (domains : List (List Char)) (e : NamePolicyEngine) : OpResult :=
  match normalizeEach normalizeAndValidateDNSDomainConstraint (fun d _ => cannotParseDomainConstraintMsg d) domains with
  | .panicked => .panicked
  | .error m => .failed e m
  | .ok ds => .done { e with permittedDNSDomains := e.permittedDNSDomains ++ ds }

/-- `WithExcludedDNSDomains` (policy/options.go:60-73); its error message
is the permitted-domain one. -/
def WithExcludedDNSDomains (domains : List (List Char)) (e : NamePolicyEngine) : OpResult :=
  match normalizeEach normalizeAndValidateDNSDomainConstraint (fun d _ => cannotParseDomainConstraintMsg d) domains with
  | .panicked => .panicked
  | .error m => .failed e m
  | .ok ds => .done { e with excludedDNSDomains := ds }

/-- `AddExcludedDNSDomains` (policy/options.go:75-88). -/
def AddExcludedDNSDomains (domains : List (List Char)) (e : NamePolicyEngine) : OpResult :=
  match normalizeEach normalizeAndValidateDNSDomainConstraint (fun d _ => cannotParseDomainConstraintMsg d) domains with
  | .panicked => .panicked
  | .error m => .failed e m
  | .ok ds => .done { e with excludedDNSDomains := e.excludedDNSDomains ++ ds }

/-- `WithPermittedDNSDomain` (policy/options.go:90-99). -/
def WithPermittedDNSDomain (domain : List Char) (e : NamePolicyEngine) : OpResult :=
  match normalizeAndValidateDNSDomainConstraint domain with
  | .panicked => .panicked
  | .error _ => .failed e (cannotParseDomainConstraintMsg domain)
  | .ok d => .done { e with permittedDNSDomains := [d] }

/-- `AddPermittedDNSDomain` (policy/options.go:101-110). -/
def AddPermittedDNSDomain (domain : List Char) (e : NamePolicyEngine) : OpResult :=
  match normalizeAndValidateDNSDomainConstraint domain with
  | .panicked => .panicked
  | .error _ => .failed e (cannotParseDomainConstraintMsg domain)
  | .ok d => .done { e with permittedDNSDomains := e.permittedDNSDomains ++ [d] }

/-- `WithExcludedDNSDomain` (policy/options.go:112-121); its error message
is the permitted-domain one. -/
def WithExcludedDNSDomain (domain : List Char) (e : NamePolicyEngine) : OpResult :=
  match normalizeAndValidateDNSDomainConstraint domain with
  | .panicked => .panicked
  | .error _ => .failed e (cannotParseDomainConstraintMsg domain)
  | .ok d => .done { e with excludedDNSDomains := [d] }

/-- `AddExcludedDNSDomain` (policy/options.go:123-132). -/
def AddExcludedDNSDomain (domain : List Char) (e : NamePolicyEngine) : OpResult :=
  match normalizeAndValidateDNSDomainConstraint domain with
  | .panicked => .panicked
  | .error _ => .failed e (cannotParseDomainConstraintMsg domain)
  | .ok d => .done { e with excludedDNSDomains := e.excludedDNSDomains ++ [d] }

/-- `WithPermittedIPRanges` (policy/options.go:134-139). -/
def WithPermittedIPRanges (ipRanges : List IPNet) (e : NamePolicyEngine) : OpResult :=
  .done { e with permittedIPRanges := ipRanges }

/-- `AddPermittedIPRanges` (policy/options.go:141-146). -/
def AddPermittedIPRanges (ipRanges : List IPNet) (e : NamePolicyEngine) : OpResult :=
  .done { e with permittedIPRanges := e.permittedIPRanges ++ ipRanges }

/-- `WithPermittedCIDRs` (policy/options.go:148-161). -/
def WithPermittedCIDRs (cidrs : List (List Char)) (e : NamePolicyEngine) : OpResult :=
  match normalizeEach cidrToResult (fun c _ => permittedCIDRMsg c) cidrs with
  | .panicked => .panicked
  | .error m => .failed e m
  | .ok ns => .done { e with permittedIPRanges := ns }

/-- `AddPermittedCIDRs` (policy/options.go:163-176). -/
def AddPermittedCIDRs (cidrs : List (List Char)) (e : NamePolicyEngine) : OpResult :=
  match normalizeEach cidrToResult (fun c _ => permittedCIDRMsg c) cidrs with
  | .panicked => .panicked
  | .error m => .failed e m
  | .ok ns => .done { e with permittedIPRanges := e.permittedIPRanges ++ ns }

/-- `WithExcludedCIDRs` (policy/options.go:178-191). -/
def WithExcludedCIDRs (cidrs : List (List Char)) (e : NamePolicyEngine) : OpResult :=
  match normalizeEach cidrToResult (fun c _ => excludedCIDRMsg c) cidrs with
  | .panicked => .panicked
  | .error m => .failed e m
  | .ok ns => .done { e with excludedIPRanges := ns }

/-- `AddExcludedCIDRs` (policy/options.go:193-206). -/
def AddExcludedCIDRs (cidrs : List (List Char)) (e : NamePolicyEngine) : OpResult :=
  match normalizeEach cidrToResult (fun c _ => excludedCIDRMsg c) cidrs with
  | .panicked => .panicked
  | .error m => .failed e m
  | .ok ns => .done { e with excludedIPRanges := e.excludedIPRanges ++ ns }

/-- `WithPermittedIPsOrCIDRs` (policy/options.go:208-224). -/
def WithPermittedIPsOrCIDRs (ipsOrCIDRs : List (List Char)) (e : NamePolicyEngine) : OpResult :=
  match normalizeEach ipOrCIDRToResult (fun x _ => permittedIPorCIDRMsg x) ipsOrCIDRs with
  | .panicked => .panicked
  | .error m => .failed e m
  | .ok ns => .done { e with permittedIPRanges := ns }

/-- `WithExcludedIPsOrCIDRs` (policy/options.go:226-242). -/
def WithExcludedIPsOrCIDRs (ipsOrCIDRs : List (List Char)) (e : NamePolicyEngine) : OpResult :=
  match normalizeEach ipOrCIDRToResult (fun x _ => excludedIPorCIDRMsg x) ipsOrCIDRs with
  | .panicked => .panicked
  | .error m => .failed e m
  | .ok ns => .done { e with excludedIPRanges := ns }

/-- `WithPermittedCIDR` (policy/options.go:244-253). -/
def WithPermittedCIDR (cidr : List Char) (e : NamePolicyEngine) : OpResult :=
  match goParseCIDR cidr with
  | none => .failed e (permittedCIDRMsg cidr)
  | some nw => .done { e with permittedIPRanges := [nw] }

/-- `AddPermittedCIDR` (policy/options.go:255-264). -/
def AddPermittedCIDR (cidr : List Char) (e : NamePolicyEngine) : OpResult :=
  match goParseCIDR cidr with
  | none => .failed e (permittedCIDRMsg cidr)
  | some nw => .done { e with permittedIPRanges := e.permittedIPRanges ++ [nw] }

/-- `WithPermittedIP` (policy/options.go:266-272). -/
def WithPermittedIP (ip : List Nat) (e : NamePolicyEngine) : OpResult :=
  .done { e with permittedIPRanges := [networkFor ip] }

/-- `AddPermittedIP` (policy/options.go:274-280). -/
def AddPermittedIP (ip : List Nat) (e : NamePolicyEngine) : OpResult :=
  .done { e with permittedIPRanges := e.permittedIPRanges ++ [networkFor ip] }

/-- `WithExcludedIPRanges` (policy/options.go:282-287). -/
def WithExcludedIPRanges (ipRanges : List IPNet) (e : NamePolicyEngine) : OpResult :=
  .done { e with excludedIPRanges := ipRanges }

/-- `AddExcludedIPRanges` (policy/options.go:289-294). -/
def AddExcludedIPRanges (ipRanges : List IPNet) (e : NamePolicyEngine) : OpResult :=
  .done { e with excludedIPRanges := e.excludedIPRanges ++ ipRanges }

/-- `WithExcludedCIDR` (policy/options.go:296-305). -/
def WithExcludedCIDR (cidr : List Char) (e : NamePolicyEngine) : OpResult :=
  match goParseCIDR cidr with
  | none => .failed e (excludedCIDRMsg cidr)
  | some nw => .done { e with excludedIPRanges := [nw] }

/-- `AddExcludedCIDR` (policy/options.go:307-316). -/
def AddExcludedCIDR (cidr : List Char) (e : NamePolicyEngine) : OpResult :=
  match goParseCIDR cidr with
  | none => .failed e (excludedCIDRMsg cidr)
  | some nw => .done { e with excludedIPRanges := e.excludedIPRanges ++ [nw] }

/-- `WithExcludedIP` (policy/options.go:318-333); the mask computation is
inlined in the source rather than calling `networkFor`. -/
def WithExcludedIP (ip : List Nat) (e : NamePolicyEngine) : OpResult :=
  let mask := if !isIPv4 ip then cidrMask 128 128 else cidrMask 32 32
  .done { e with excludedIPRanges := [⟨ip, mask⟩] }

/-- `AddExcludedIP` (policy/options.go:335-350); the mask computation is
inlined in the source rather than calling `networkFor`. -/
def AddExcludedIP (ip : List Nat) (e : NamePolicyEngine) : OpResult :=
  let mask := if !isIPv4 ip then cidrMask 128 128 else cidrMask 32 32
  .done { e with excludedIPRanges := e.excludedIPRanges ++ [⟨ip, mask⟩] }

/-- `WithPermittedEmailAddresses` (policy/options.go:352-365); the
normalizer's own error is returned. -/
def WithPermittedEmailAddresses (emails : List (List Char)) (e : NamePolicyEngine) : OpResult :=
  match normalizeEach normalizeAndValidateEmailConstraint (fun _ m => m) emails with
  | .panicked => .panicked
  | .error m => .failed e m
  | .ok es => .done { e with permittedEmailAddresses := es }

/-- `AddPermittedEmailAddresses` (policy/options.go:367-380). -/
def AddPermittedEmailAddresses (emails : List (List Char)) (e : NamePolicyEngine) : OpResult :=
  match normalizeEach normalizeAndValidateEmailConstraint (fun _ m => m) emails with
  | .panicked => .panicked
  | .error m => .failed e m
  | .ok es => .done { e with permittedEmailAddresses := e.permittedEmailAddresses ++ es }

/-- `WithExcludedEmailAddresses` (policy/options.go:382-395). -/
def WithExcludedEmailAddresses (emails : List (List Char)) (e : NamePolicyEngine) : OpResult :=
  match normalizeEach normalizeAndValidateEmailConstraint (fun _ m => m) emails with
  | .panicked => .panicked
  | .error m => .failed e m
  | .ok es => .done { e with excludedEmailAddresses := es }

/-- `AddExcludedEmailAddresses` (policy/options.go:397-410). -/
def AddExcludedEmailAddresses (emails : List (List Char)) (e : NamePolicyEngine) : OpResult :=
  match normalizeEach normalizeAndValidateEmailConstraint (fun _ m => m) emails with
  | .panicked => .panicked
  | .error m => .failed e m
  | .ok es => .done { e with excludedEmailAddresses := e.excludedEmailAddresses ++ es }

/-- `WithPermittedEmailAddress` (policy/options.go:412-421). -/
def WithPermittedEmailAddress (email : List Char) (e : NamePolicyEngine) : OpResult :=
  match normalizeAndValidateEmailConstraint email with
  | .panicked => .panicked
  | .error m => .failed e m
  | .ok v => .done { e with permittedEmailAddresses := [v] }

/-- `AddPermittedEmailAddress` (policy/options.go:423-432). -/
def AddPermittedEmailAddress (email : List Char) (e : NamePolicyEngine) : OpResult :=
  match normalizeAndValidateEmailConstraint email with
  | .panicked => .panicked
  | .error m => .failed e m
  | .ok v => .done { e with permittedEmailAddresses := e.permittedEmailAddresses ++ [v] }

/-- `WithExcludedEmailAddress` (policy/options.go:434-443). -/
def WithExcludedEmailAddress (email : List Char) (e : NamePolicyEngine) : OpResult :=
  match normalizeAndValidateEmailConstraint email with
  | .panicked => .panicked
  | .error m => .failed e m
  | .ok v => .done { e with excludedEmailAddresses := [v] }

/-- `AddExcludedEmailAddress` (policy/options.go:445-454). -/
def AddExcludedEmailAddress (email : List Char) (e : NamePolicyEngine) : OpResult :=
  match normalizeAndValidateEmailConstraint email with
  | .panicked => .panicked
  | .error m => .failed e m
  | .ok v => .done { e with excludedEmailAddresses := e.excludedEmailAddresses ++ [v] }

/-- `WithPermittedURIDomains` (policy/options.go:456-469). -/
def WithPermittedURIDomains (uriDomains : List (List Char)) (e : NamePolicyEngine) : OpResult :=
  match normalizeEach normalizeAndValidateURIDomainConstraint (fun _ m => m) uriDomains with
  | .panicked => .panicked
  | .error m => .failed e m
  | .ok ds => .done { e with permittedURIDomains := ds }

/-- `AddPermittedURIDomains` (policy/options.go:471-484). -/
def AddPermittedURIDomains (uriDomains : List (List Char)) (e : NamePolicyEngine) : OpResult :=
  match normalizeEach normalizeAndValidateURIDomainConstraint (fun _ m => m) uriDomains with
  | .panicked => .panicked
  | .error m => .failed e m
  | .ok ds => .done { e with permittedURIDomains := e.permittedURIDomains ++ ds }

/-- `WithPermittedURIDomain` (policy/options.go:486-495). -/
def WithPermittedURIDomain (uriDomain : List Char) (e : NamePolicyEngine) : OpResult :=
  match normalizeAndValidateURIDomainConstraint uriDomain with
  | .panicked => .panicked
  | .error m => .failed e m
  | .ok d => .done { e with permittedURIDomains := [d] }

/-- `AddPermittedURIDomain` (policy/options.go:497-506). -/
def AddPermittedURIDomain (uriDomain : List Char) (e : NamePolicyEngine) : OpResult :=
  match normalizeAndValidateURIDomainConstraint uriDomain with
  | .panicked => .panicked
  | .error m => .failed e m
  | .ok d => .done { e with permittedURIDomains := e.permittedURIDomains ++ [d] }

/-- `WithExcludedURIDomains` (policy/options.go:508-521). -/
def WithExcludedURIDomains (uriDomains : List (List Char)) (e : NamePolicyEngine) : OpResult :=
  match normalizeEach normalizeAndValidateURIDomainConstraint (fun _ m => m) uriDomains with
  | .panicked => .panicked
  | .error m => .failed e m
  | .ok ds => .done { e with excludedURIDomains := ds }

/-- `AddExcludedURIDomains` (policy/options.go:523-536). -/
def AddExcludedURIDomains (uriDomains : List (List Char)) (e : NamePolicyEngine) : OpResult :=
  match normalizeEach normalizeAndValidateURIDomainConstraint (fun _ m => m) uriDomains with
  | .panicked => .panicked
  | .error m => .failed e m
  | .ok ds => .done { e with excludedURIDomains := e.excludedURIDomains ++ ds }

/-- `WithExcludedURIDomain` (policy/options.go:538-547). -/
def WithExcludedURIDomain (uriDomain : List Char) (e : NamePolicyEngine) : OpResult :=
  match normalizeAndValidateURIDomainConstraint uriDomain with
  | .panicked => .panicked
  | .error m => .failed e m
  | .ok d => .done { e with excludedURIDomains := [d] }

/-- `AddExcludedURIDomain` (policy/options.go:549-558). -/
def AddExcludedURIDomain (uriDomain : List Char) (e : NamePolicyEngine) : OpResult :=
  match normalizeAndValidateURIDomainConstraint uriDomain with
  | .panicked => .panicked
  | .error m => .failed e m
  | .ok d => .done { e with excludedURIDomains := e.excludedURIDomains ++ [d] }

/-- `WithPermittedPrincipals` (policy/options.go:560-566): stored verbatim. -/
def WithPermittedPrincipals (principals : List (List Char)) (e : NamePolicyEngine) : OpResult :=
  .done { e with permittedPrincipals := principals }

/-- `WithExcludedPrincipals` (policy/options.go:568-574): stored verbatim. -/
def WithExcludedPrincipals (principals : List (List Char)) (e : NamePolicyEngine) : OpResult :=
  .done { e with excludedPrincipals := principals }

/-- Enumeration of every configuration option of policy/options.go,
together with its argument. -/
inductive ConfigOp where
  | withSubjectCommonNameVerification
  | withAllowLiteralWildcardNames
  | withPermittedDNSDomains (domains : List (List Char))
  | addPermittedDNSDomains (domains : List (List Char))
  | withExcludedDNSDomains (domains : List (List Char))
  | addExcludedDNSDomains (domains : List (List Char))
  | withPermittedDNSDomain (domain : List Char)
  | addPermittedDNSDomain (domain : List Char)
  | withExcludedDNSDomain (domain : List Char)
  | addExcludedDNSDomain (domain : List Char)
  | withPermittedIPRanges (ranges : List IPNet)
  | addPermittedIPRanges (ranges : List IPNet)
  | withPermittedCIDRs (cidrs : List (List Char))
  | addPermittedCIDRs (cidrs : List (List Char))
  | withExcludedCIDRs (cidrs : List (List Char))
  | addExcludedCIDRs (cidrs : List (List Char))
  | withPermittedIPsOrCIDRs (xs : List (List Char))
  | withExcludedIPsOrCIDRs (xs : List (List Char))
  | withPermittedCIDR (cidr : List Char)
  | addPermittedCIDR (cidr : List Char)
  | withPermittedIP (ip : List Nat)
  | addPermittedIP (ip : List Nat)
  | withExcludedIPRanges (ranges : List IPNet)
  | addExcludedIPRanges (ranges : List IPNet)
  | withExcludedCIDR (cidr : List Char)
  | addExcludedCIDR (cidr : List Char)
  | withExcludedIP (ip : List Nat)
  | addExcludedIP (ip : List Nat)
  | withPermittedEmailAddresses (emails : List (List Char))
  | addPermittedEmailAddresses (emails : List (List Char))
  | withExcludedEmailAddresses (emails : List (List Char))
  | addExcludedEmailAddresses (emails : List (List Char))
  | withPermittedEmailAddress (email : List Char)
  | addPermittedEmailAddress (email : List Char)
  | withExcludedEmailAddress (email : List Char)
  | addExcludedEmailAddress (email : List Char)
  | withPermittedURIDomains (ds : List (List Char))
  | addPermittedURIDomains (ds : List (List Char))
  | withPermittedURIDomain (d : List Char)
  | addPermittedURIDomain (d : List Char)
  | withExcludedURIDomains (ds : List (List Char))
  | addExcludedURIDomains (ds : List (List Char))
  | withExcludedURIDomain (d : List Char)
  | addExcludedURIDomain (d : List Char)
  | withPermittedPrincipals (ps : List (List Char))
  | withExcludedPrincipals (ps : List (List Char))
deriving DecidableEq

/-- Run a configuration option against an engine. -/
def applyConfigOp : ConfigOp → NamePolicyEngine → OpResult
  | .withSubjectCommonNameVerification, e => WithSubjectCommonNameVerification e
  | .withAllowLiteralWildcardNames, e => WithAllowLiteralWildcardNames e
  | .withPermittedDNSDomains ds, e => WithPermittedDNSDomains ds e
  | .addPermittedDNSDomains ds, e => AddPermittedDNSDomains ds e
  | .withExcludedDNSDomains ds, e => WithExcludedDNSDomains ds e
  | .addExcludedDNSDomains ds, e => AddExcludedDNSDomains ds e
  | .withPermittedDNSDomain d, e => WithPermittedDNSDomain d e
  | .addPermittedDNSDomain d, e => AddPermittedDNSDomain d e
  | .withExcludedDNSDomain d, e => WithExcludedDNSDomain d e
  | .addExcludedDNSDomain d, e => AddExcludedDNSDomain d e
  | .withPermittedIPRanges rs, e => WithPermittedIPRanges rs e
  | .addPermittedIPRanges rs, e => AddPermittedIPRanges rs e
  | .withPermittedCIDRs cs, e => WithPermittedCIDRs cs e
  | .addPermittedCIDRs cs, e => AddPermittedCIDRs cs e
  | .withExcludedCIDRs cs, e => WithExcludedCIDRs cs e
  | .addExcludedCIDRs cs, e => AddExcludedCIDRs cs e
  | .withPermittedIPsOrCIDRs xs, e => WithPermittedIPsOrCIDRs xs e
  | .withExcludedIPsOrCIDRs xs, e => WithExcludedIPsOrCIDRs xs e
  | .withPermittedCIDR c, e => WithPermittedCIDR c e
  | .addPermittedCIDR c, e => AddPermittedCIDR c e
  | .withPermittedIP ip, e => WithPermittedIP ip e
  | .addPermittedIP ip, e => AddPermittedIP ip e
  | .withExcludedIPRanges rs, e => WithExcludedIPRanges rs e
  | .addExcludedIPRanges rs, e => AddExcludedIPRanges rs e
  | .withExcludedCIDR c, e => WithExcludedCIDR c e
  | .addExcludedCIDR c, e => AddExcludedCIDR c e
  | .withExcludedIP ip, e => WithExcludedIP ip e
  | .addExcludedIP ip, e => AddExcludedIP ip e
  | .withPermittedEmailAddresses es, e => WithPermittedEmailAddresses es e
  | .addPermittedEmailAddresses es, e => AddPermittedEmailAddresses es e
  | .withExcludedEmailAddresses es, e => WithExcludedEmailAddresses es e
  | .addExcludedEmailAddresses es, e => AddExcludedEmailAddresses es e
  | .withPermittedEmailAddress x, e => WithPermittedEmailAddress x e
  | .addPermittedEmailAddress x, e => AddPermittedEmailAddress x e
  | .withExcludedEmailAddress x, e => WithExcludedEmailAddress x e
  | .addExcludedEmailAddress x, e => AddExcludedEmailAddress x e
  | .withPermittedURIDomains ds, e => WithPermittedURIDomains ds e
  | .addPermittedURIDomains ds, e => AddPermittedURIDomains ds e
  | .withPermittedURIDomain d, e => WithPermittedURIDomain d e
  | .addPermittedURIDomain d, e => AddPermittedURIDomain d e
  | .withExcludedURIDomains ds, e => WithExcludedURIDomains ds e
  | .addExcludedURIDomains ds, e => AddExcludedURIDomains ds e
  | .withExcludedURIDomain d, e => WithExcludedURIDomain d e
  | .addExcludedURIDomain d, e => AddExcludedURIDomain d e
  | .withPermittedPrincipals ps, e => WithPermittedPrincipals ps e
  | .withExcludedPrincipals ps, e => WithExcludedPrincipals ps e

/-- The twelve fields of the engine, as observation points. -/
inductive EngineField where
  | verifyCN
  | allowWildcard
  | permDNS
  | exclDNS
  | permIP
  | exclIP
  | permEmail
  | exclEmail
  | permURI
  | exclURI
  | permPrincipals
  | exclPrincipals
deriving DecidableEq

/-- Uniform encoding of a field's value. -/
inductive FieldValue where
  | b (v : Bool)
  | strs (v : List (List Char))
  | nets (v : List IPNet)
deriving DecidableEq

/-- Observe one field of an engine. -/
def getField : EngineField → NamePolicyEngine → FieldValue
  | .verifyCN, e => .b e.verifySubjectCommonName
  | .allowWildcard, e => .b e.allowLiteralWildcardNames
  | .permDNS, e => .strs e.permittedDNSDomains
  | .exclDNS, e => .strs e.excludedDNSDomains
  | .permIP, e => .nets e.permittedIPRanges
  | .exclIP, e => .nets e.excludedIPRanges
  | .permEmail, e => .strs e.permittedEmailAddresses
  | .exclEmail, e => .strs e.excludedEmailAddresses
  | .permURI, e => .strs e.permittedURIDomains
  | .exclURI, e => .strs e.excludedURIDomains
  | .permPrincipals, e => .strs e.permittedPrincipals
  | .exclPrincipals, e => .strs e.excludedPrincipals

/-- The single engine field each option is named for. -/
def opTarget : ConfigOp → EngineField
  | .withSubjectCommonNameVerification => .verifyCN
  | .withAllowLiteralWildcardNames => .allowWildcard
  | .withPermittedDNSDomains _ => .permDNS
  | .addPermittedDNSDomains _ => .permDNS
  | .withExcludedDNSDomains _ => .exclDNS
  | .addExcludedDNSDomains _ => .exclDNS
  | .withPermittedDNSDomain _ => .permDNS
  | .addPermittedDNSDomain _ => .permDNS
  | .withExcludedDNSDomain _ => .exclDNS
  | .addExcludedDNSDomain _ => .exclDNS
  | .withPermittedIPRanges _ => .permIP
  | .addPermittedIPRanges _ => .permIP
  | .withPermittedCIDRs _ => .permIP
  | .addPermittedCIDRs _ => .permIP
  | .withExcludedCIDRs _ => .exclIP
  | .addExcludedCIDRs _ => .exclIP
  | .withPermittedIPsOrCIDRs _ => .permIP
  | .withExcludedIPsOrCIDRs _ => .exclIP
  | .withPermittedCIDR _ => .permIP
  | .addPermittedCIDR _ => .permIP
  | .withPermittedIP _ => .permIP
  | .addPermittedIP _ => .permIP
  | .withExcludedIPRanges _ => .exclIP
  | .addExcludedIPRanges _ => .exclIP
  | .withExcludedCIDR _ => .exclIP
  | .addExcludedCIDR _ => .exclIP
  | .withExcludedIP _ => .exclIP
  | .addExcludedIP _ => .exclIP
  | .withPermittedEmailAddresses _ => .permEmail
  | .addPermittedEmailAddresses _ => .permEmail
  | .withExcludedEmailAddresses _ => .exclEmail
  | .addExcludedEmailAddresses _ => .exclEmail
  | .withPermittedEmailAddress _ => .permEmail
  | .addPermittedEmailAddress _ => .permEmail
  | .withExcludedEmailAddress _ => .exclEmail
  | .addExcludedEmailAddress _ => .exclEmail
  | .withPermittedURIDomains _ => .permURI
  | .addPermittedURIDomains _ => .permURI
  | .withPermittedURIDomain _ => .permURI
  | .addPermittedURIDomain _ => .permURI
  | .withExcludedURIDomains _ => .exclURI
  | .addExcludedURIDomains _ => .exclURI
  | .withExcludedURIDomain _ => .exclURI
  | .addExcludedURIDomain _ => .exclURI
  | .withPermittedPrincipals _ => .permPrincipals
  | .withExcludedPrincipals _ => .exclPrincipals

/-- The options that take a whole list of raw inputs. -/
def isMultiValued : ConfigOp → Bool
  | .withPermittedDNSDomains _ => true
  | .addPermittedDNSDomains _ => true
  | .withExcludedDNSDomains _ => true
  | .addExcludedDNSDomains _ => true
  | .withPermittedIPRanges _ => true
  | .addPermittedIPRanges _ => true
  | .withPermittedCIDRs _ => true
  | .addPermittedCIDRs _ => true
  | .withExcludedCIDRs _ => true
  | .addExcludedCIDRs _ => true
  | .withPermittedIPsOrCIDRs _ => true
  | .withExcludedIPsOrCIDRs _ => true
  | .withExcludedIPRanges _ => true
  | .addExcludedIPRanges _ => true
  | .withPermittedEmailAddresses _ => true
  | .addPermittedEmailAddresses _ => true
  | .withExcludedEmailAddresses _ => true
  | .addExcludedEmailAddresses _ => true
  | .withPermittedURIDomains _ => true
  | .addPermittedURIDomains _ => true
  | .withExcludedURIDomains _ => true
  | .addExcludedURIDomains _ => true
  | .withPermittedPrincipals _ => true
  | .withExcludedPrincipals _ => true
  | _ => false

/-- A single-quote character, used by the fallback branch of
`ProblemType.String` (written by code to keep the file free of quote
characters outside names). -/
def squote : String := String.mk [Char.ofNat 39]

/-- authority/mgmt/errors.go models `ProblemType` as an integer; the four
constants follow. -/
def ErrorNotFoundType : Nat := 0

def ErrorAuthorityMismatchType : Nat := 1

def ErrorDeletedType : Nat := 2

def ErrorServerInternalType : Nat := 3

/-- `ProblemType.String` (errors.go:32-45). -/
def problemTypeString (ap : Nat) : String :=
  match ap with
  | 0 => "notFound"
  | 1 => "authorityMismatch"
  | 2 => "deleted"
  | 3 => "internalServerError"
  | n => "unsupported error type " ++ squote ++ toString n ++ squote

/-- `errorMetadata` (errors.go:47-52); the unused `String` field is kept
as `stringField`. -/
structure ErrorMetadata where
  details : String
  status : Nat
  typ : String
  stringField : String
deriving DecidableEq

/-- `errorServerInternalMetadata` (errors.go:55-59). -/
def errorServerInternalMetadata : ErrorMetadata :=
  { details := "the server experienced an internal error"
    status := 500
    typ := problemTypeString ErrorServerInternalType
    stringField := "" }

/-- `errorMap` (errors.go:60-78).  The `ErrorDeletedType` entry carries
`ErrorNotFoundType.String()` as its type, exactly as the source does at
line 72. -/
def errorMap (pt : Nat) : Option ErrorMetadata :=
  match pt with
  | 0 => some { details := "resource not found", status := 400,
                typ := problemTypeString ErrorNotFoundType, stringField := "" }
  | 1 => some { details := "resource not owned by authority", status := 401,
                typ := problemTypeString ErrorAuthorityMismatchType, stringField := "" }
  | 2 => some { details := "resource is deleted", status := 403,
                typ := problemTypeString ErrorNotFoundType, stringField := "" }
  | 3 => some errorServerInternalMetadata
  | _ => none

/-- The `Error` struct of authority/mgmt/errors.go (`Type`, `Detail`,
`Status` and the wrapped cause; the optional subproblem/identifier
payloads are not touched by the functions embedded here). -/
structure MgmtError where
  typ : String
  detail : String
  status : Nat
  err : String
deriving DecidableEq

/-- `newError` (errors.go:100-118). -/
def newError (pt : Nat) (err : String) : MgmtError :=
  match errorMap pt with
  | none =>
    { typ := errorServerInternalMetadata.typ
      detail := errorServerInternalMetadata.details
      status := errorServerInternalMetadata.status
      err := err }
  | some meta =>
    { typ := meta.typ, detail := meta.details, status := meta.status, err := err }

/-- `NewError` (errors.go:96-98); `errors.Errorf(msg, args...)` is
embedded as the formatted message itself. -/
def NewError (pt : Nat) (msg : String) : MgmtError := newError pt msg

/-- `Error.IsType` (errors.go:91-93). -/
def MgmtError.IsType (e : MgmtError) (pt : Nat) : Bool :=
  problemTypeString pt == e.typ

/-- Provisioner status (`mgmt.StatusDeleted`); the declaration lives in the
mgmt package outside src/, its two relevant states are determined by the
uses in provisioner.go. -/
inductive ProvStatus where
  | active
  | deleted
deriving DecidableEq

/-- `dbProvisioner` (provisioner.go:15-28).  Opaque payloads (claims,
details, templates) are carried as strings; timestamps are naturals with
`0` as Go's zero `time.Time`. -/
structure DbProvisioner where
  id : String
  authorityID : String
  ptype : String
  name : String
  claims : String
  details : String
  x509Template : String
  x509TemplateData : String
  sshTemplate : String
  sshTemplateData : String
  createdAt : Nat
  deletedAt : Nat
deriving DecidableEq

/-- `dbProvisioner.clone` (provisioner.go:30-33): a Go value copy. -/
def DbProvisioner.clone (p : DbProvisioner) : DbProvisioner := p

/-- The fields of `mgmt.Provisioner` that `UpdateProvisioner` reads
(provisioner.go:176-194); the struct declaration lives outside src/ and
its shape is determined by those uses. -/
structure Provisioner where
  id : String
  status : ProvStatus
  claims : String
  details : String
  x509Template : String
  sshTemplate : String
deriving DecidableEq

/-- The pure core of `DB.UpdateProvisioner` (provisioner.go:176-194): the
record written back, given the loaded record `old`, the request `prov`
and the current time.  Loading and saving are external key-value-store
calls. -/
def updateProvisionerRecord (old : DbProvisioner) (prov : Provisioner) (now : Nat) : DbProvisioner :=
  let nu := old.clone
  let nu := if old.deletedAt = 0 ∧ prov.status = ProvStatus.deleted then { nu with deletedAt := now } else nu
  { nu with
    claims := prov.claims
    details := prov.details
    x509Template := prov.x509Template
    sshTemplate := prov.sshTemplate }

/-! ### Helper lemmas -/

theorem idnaLookupToASCII_ne_panicked (s : List Char) : idnaLookupToASCII s ≠ .panicked := by
  unfold idnaLookupToASCII
  split <;> simp

theorem idnaLookupToASCII_ok_iff (s t : List Char) :
    idnaLookupToASCII s = .ok t ↔ s.all idnaAllowedChar = true ∧ t = s := by
  unfold idnaLookupToASCII
  split <;> simp_all
  exact eq_comm

/-! ### C1 -/

/-- C1: constraint normalization is claimed to be total and panic-free; in
the code the DNS normalizer panics on the one-character input `*`
(out-of-range index 1) and the email normalizer panics on `@` (index 0 of
the empty remainder); the URI normalizer never panics. -/
theorem normalization_panics_on_one_char_inputs :
    normalizeAndValidateDNSDomainConstraint "*".toList = .panicked ∧
    normalizeAndValidateEmailConstraint "@".toList = .panicked ∧
    ∀ s, normalizeAndValidateURIDomainConstraint s ≠ .panicked := by
  refine ⟨by decide, by decide, ?_⟩
  intro s h
  simp only [normalizeAndValidateURIDomainConstraint] at h
  split_ifs at h <;> try simp_all
  all_goals
    (split at h <;>
      first
        | exact idnaLookupToASCII_ne_panicked _ (by assumption)
        | simp_all
        | (split_ifs at h <;> simp_all))

/-! ### C7 -/

/-- C7: configuration errors are claimed to name the offending raw input
and, for excluded-constraint operations, an excluded constraint; the
excluded-DNS options reuse the permitted-domain message: the error of
`WithExcludedDNSDomains` (and `WithExcludedDNSDomain`) on the failing
input `a..b` quotes the raw input but says "permitted", never
"excluded", and drops the specific rule (empty label). -/
theorem excluded_dns_option_error_says_permitted :
    WithExcludedDNSDomains ["a..b".toList] emptyEngine =
      .failed emptyEngine (cannotParseDomainConstraintMsg "a..b".toList) ∧
    WithExcludedDNSDomain "a..b".toList emptyEngine =
      .failed emptyEngine (cannotParseDomainConstraintMsg "a..b".toList) ∧
    goContains (cannotParseDomainConstraintMsg "a..b".toList) (goQuote "a..b".toList) = true ∧
    goContains (cannotParseDomainConstraintMsg "a..b".toList) "permitted".toList = true ∧
    goContains (cannotParseDomainConstraintMsg "a..b".toList) "excluded".toList = false ∧
    goContains (cannotParseDomainConstraintMsg "a..b".toList) "empty label".toList = false := by
  decide

/-! ### C9 -/

/-- C9: `NewError(pt, msg).IsType(pt)` is claimed for all four problem-type
constants; it holds for three of them, but the `errorMap` entry for
`ErrorDeletedType` carries `ErrorNotFoundType.String()` (errors.go:72), so
the error built for `ErrorDeletedType` has type `"notFound"` and
`IsType(ErrorDeletedType)` is false. -/
theorem newError_deleted_type_mismatch :
    ∀ msg : String,
    (NewError ErrorDeletedType msg).IsType ErrorDeletedType = false ∧
    (NewError ErrorDeletedType msg).typ = "notFound" ∧
    problemTypeString ErrorDeletedType = "deleted" ∧
    (NewError ErrorNotFoundType msg).IsType ErrorNotFoundType = true ∧
    (NewError ErrorAuthorityMismatchType msg).IsType ErrorAuthorityMismatchType = true ∧
    (NewError ErrorServerInternalType msg).IsType ErrorServerInternalType = true := by
  intro msg
  exact ⟨rfl, rfl, rfl, rfl, rfl, rfl⟩

/-! ### C10 -/

/-- C10: the record `UpdateProvisioner` writes back keeps the stored
identity (`ID`, `AuthorityID`, `Type`, `Name`, `CreatedAt`) and never
clears a non-zero `DeletedAt`; `DeletedAt` changes only when an active
provisioner is marked deleted, and then to the current time. -/
theorem updateProvisioner_keeps_identity_and_deletion :
    ∀ (old : DbProvisioner) (prov : Provisioner) (now : Nat),
    (updateProvisionerRecord old prov now).id = old.id ∧
    (updateProvisionerRecord old prov now).authorityID = old.authorityID ∧
    (updateProvisionerRecord old prov now).ptype = old.ptype ∧
    (updateProvisionerRecord old prov now).name = old.name ∧
    (updateProvisionerRecord old prov now).createdAt = old.createdAt ∧
    (old.deletedAt ≠ 0 → (updateProvisionerRecord old prov now).deletedAt = old.deletedAt) ∧
    ((updateProvisionerRecord old prov now).deletedAt ≠ old.deletedAt →
      old.deletedAt = 0 ∧ prov.status = ProvStatus.deleted ∧
      (updateProvisionerRecord old prov now).deletedAt = now) := by
  intro old prov now
  unfold updateProvisionerRecord DbProvisioner.clone
  split
  next hc =>
    exact ⟨rfl, rfl, rfl, rfl, rfl, fun hne => absurd hc.1 hne,
      fun _ => ⟨hc.1, hc.2, rfl⟩⟩
  next hc =>
    exact ⟨rfl, rfl, rfl, rfl, rfl, fun _ => rfl, fun hne => absurd rfl hne⟩

/-- Witness for C10: a record deleted at time 5 keeps its deletion time. -/
theorem updateProvisioner_keeps_identity_and_deletion_witness :
    (updateProvisionerRecord
      ⟨"p1", "auth", "JWK", "name", "c", "d", "x", "xd", "s", "sd", 3, 5⟩
      ⟨"p1", ProvStatus.active, "c2", "d2", "x2", "s2"⟩ 7).deletedAt = 5 :=
  (updateProvisioner_keeps_identity_and_deletion
    ⟨"p1", "auth", "JWK", "name", "c", "d", "x", "xd", "s", "sd", 3, 5⟩
    ⟨"p1", ProvStatus.active, "c2", "d2", "x2", "s2"⟩ 7).2.2.2.2.2.1 (by decide)

/-! ### C2 counterexample -/

/-- C2 fails on the code: the whole constraint is lowercased before the
mailbox is split, so the local part of the normalized constraint for
`Alice@example.com` is `alice`, not the as-written `Alice`. -/
theorem email_constraint_lowercases_local_part :
    normalizeAndValidateEmailConstraint "Alice@example.com".toList = .ok "alice@example.com".toList ∧
    localPartOf "alice@example.com".toList ≠ localPartOf (goTrimSpace "Alice@example.com".toList) := by
  decide

/-! ### C4 counterexample -/

/-- C4 fails on the code at the input `*`: the wildcard occurs as the
first character without a following `.`, which the claim says causes an
error, but the code panics (out-of-range index) instead of returning one. -/
theorem dns_constraint_single_star_panics :
    normalizeAndValidateDNSDomainConstraint ['*'] = .panicked := by
  decide

/-! ### C3 -/

/-- C3: every multi-value configuration operation is atomic — when it
returns an error, the engine state at the return is exactly the state the
operation was given (the options normalize the whole input list into a
fresh slice and only assign the engine field after full success). -/
theorem multi_value_op_failure_leaves_engine_unchanged :
    ∀ (op : ConfigOp) (e e' : NamePolicyEngine) (m : List Char),
    isMultiValued op = true →
    applyConfigOp op e = .failed e' m →
    e' = e := by
  intro op e e' m hm h
  cases op
  all_goals try (simp only [isMultiValued] at hm; exact absurd hm (by decide))
  all_goals
    (simp only [applyConfigOp, WithPermittedDNSDomains, AddPermittedDNSDomains,
       WithExcludedDNSDomains, AddExcludedDNSDomains, WithPermittedIPRanges,
       AddPermittedIPRanges, WithPermittedCIDRs, AddPermittedCIDRs, WithExcludedCIDRs,
       AddExcludedCIDRs, WithPermittedIPsOrCIDRs, WithExcludedIPsOrCIDRs,
       WithExcludedIPRanges, AddExcludedIPRanges, WithPermittedEmailAddresses,
       AddPermittedEmailAddresses, WithExcludedEmailAddresses, AddExcludedEmailAddresses,
       WithPermittedURIDomains, AddPermittedURIDomains, WithExcludedURIDomains,
       AddExcludedURIDomains, WithPermittedPrincipals, WithExcludedPrincipals] at h
     first
       | (split at h <;> simp_all)
       | simp_all)

/-- Witness for C3: `WithPermittedDNSDomains` on the bad input `a..b`
fails and leaves the empty engine untouched. -/
theorem multi_value_op_failure_leaves_engine_unchanged_witness :
    isMultiValued (ConfigOp.withPermittedDNSDomains ["a..b".toList]) = true ∧
    applyConfigOp (ConfigOp.withPermittedDNSDomains ["a..b".toList]) emptyEngine =
      .failed emptyEngine (cannotParseDomainConstraintMsg "a..b".toList) ∧
    emptyEngine = emptyEngine :=
  ⟨by decide, by decide,
    multi_value_op_failure_leaves_engine_unchanged
      (ConfigOp.withPermittedDNSDomains ["a..b".toList]) emptyEngine emptyEngine
      (cannotParseDomainConstraintMsg "a..b".toList) (by decide) (by decide)⟩

/-! ### C8 -/

/-- C8: every configuration option mutates only the engine field it names:
whatever engine state it is given and whether it succeeds or fails, every
other constraint list and both boolean flags are observed unchanged. -/
theorem config_op_mutates_only_named_field :
    ∀ (op : ConfigOp) (e e' : NamePolicyEngine) (f : EngineField),
    resultEngine (applyConfigOp op e) = some e' →
    f ≠ opTarget op →
    getField f e' = getField f e := by
  intro op e e' f h hf
  cases op <;>
    (simp only [applyConfigOp, opTarget, WithSubjectCommonNameVerification,
       WithAllowLiteralWildcardNames, WithPermittedDNSDomains, AddPermittedDNSDomains,
       WithExcludedDNSDomains, AddExcludedDNSDomains, WithPermittedDNSDomain,
       AddPermittedDNSDomain, WithExcludedDNSDomain, AddExcludedDNSDomain,
       WithPermittedIPRanges, AddPermittedIPRanges, WithPermittedCIDRs, AddPermittedCIDRs,
       WithExcludedCIDRs, AddExcludedCIDRs, WithPermittedIPsOrCIDRs, WithExcludedIPsOrCIDRs,
       WithPermittedCIDR, AddPermittedCIDR, WithPermittedIP, AddPermittedIP,
       WithExcludedIPRanges, AddExcludedIPRanges, WithExcludedCIDR, AddExcludedCIDR,
       WithExcludedIP, AddExcludedIP, WithPermittedEmailAddresses, AddPermittedEmailAddresses,
       WithExcludedEmailAddresses, AddExcludedEmailAddresses, WithPermittedEmailAddress,
       AddPermittedEmailAddress, WithExcludedEmailAddress, AddExcludedEmailAddress,
       WithPermittedURIDomains, AddPermittedURIDomains, WithPermittedURIDomain,
       AddPermittedURIDomain, WithExcludedURIDomains, AddExcludedURIDomains,
       WithExcludedURIDomain, AddExcludedURIDomain, WithPermittedPrincipals,
       WithExcludedPrincipals] at h hf
     try split at h
     all_goals simp only [resultEngine, Option.some.injEq] at h
     all_goals first
       | (subst h; cases f <;> simp_all [getField])
       | (cases h)
       | simp_all)

/-- Witness for C8: setting the permitted DNS list leaves the excluded
DNS list untouched. -/
theorem config_op_mutates_only_named_field_witness :
    getField EngineField.exclDNS
      { emptyEngine with permittedDNSDomains := ["example.com".toList] } =
    getField EngineField.exclDNS emptyEngine :=
  config_op_mutates_only_named_field
    (ConfigOp.withPermittedDNSDomains ["example.com".toList]) emptyEngine
    { emptyEngine with permittedDNSDomains := ["example.com".toList] }
    EngineField.exclDNS (by decide) (by decide)

theorem normalizeEach_ok_get {α : Type} (f : List Char → GoResult α)
    (mk : List Char → List Char → List Char) :
    ∀ (l : List (List Char)) (v : List α), normalizeEach f mk l = .ok v →
    ∀ (i : Nat) (x : List Char), l.get? i = some x →
    ∃ w, v.get? i = some w ∧ f x = .ok w := by
  intro l
  induction l with
  | nil => intro v _ i x hx; simp at hx
  | cons a l ih =>
    intro v hv i x hx
    unfold normalizeEach at hv
    cases hfa : f a with
    | panicked => rw [hfa] at hv; cases hv
    | error m => rw [hfa] at hv; cases hv
    | ok w0 =>
      rw [hfa] at hv
      cases hrest : normalizeEach f mk l with
      | panicked => rw [hrest] at hv; cases hv
      | error m => rw [hrest] at hv; cases hv
      | ok ws =>
        rw [hrest] at hv
        cases hv
        cases i with
        | zero =>
          simp at hx
          exact ⟨w0, by simp, hx ▸ hfa⟩
        | succ j =>
          simp at hx
          obtain ⟨w, hw1, hw2⟩ := ih ws hrest j x (by simpa using hx)
          exact ⟨w, by simpa using hw1, hw2⟩

theorem normalizeEach_error_of_mem {α : Type} (f : List Char → GoResult α)
    (mk : List Char → List Char → List Char)
    (hnp : ∀ x, f x ≠ .panicked) :
    ∀ (l : List (List Char)) (x : List Char) (m0 : List Char),
    x ∈ l → f x = .error m0 → ∃ m, normalizeEach f mk l = .error m := by
  intro l
  induction l with
  | nil => intro x m0 hx; simp at hx
  | cons a l ih =>
    intro x m0 hx hfx
    unfold normalizeEach
    cases hfa : f a with
    | panicked => exact absurd hfa (hnp a)
    | error m => exact ⟨mk a m, rfl⟩
    | ok w0 =>
      rcases List.mem_cons.mp hx with rfl | hmem
      · rw [hfa] at hfx; cases hfx
      · obtain ⟨m, hm⟩ := ih x m0 hmem hfx
        rw [hm]
        exact ⟨m, rfl⟩

theorem ipOrCIDRToResult_ne_panicked (x : List Char) : ipOrCIDRToResult x ≠ .panicked := by
  unfold ipOrCIDRToResult
  cases goParseCIDR x <;> simp
  cases goParseIP x <;> simp

/-! ### C6 -/

/-- C6: every IP-accepting option widens a bare address to a host-only
network keeping the base address — mask `/32` (four 255 bytes) when the
address is IPv4 and `/128` (sixteen 255 bytes) otherwise; in the
IPs-or-CIDRs options an entry parsing as an IP is stored as that widened
network at its position, and an entry parsing as neither CIDR nor IP
fails the whole operation with the engine unchanged. -/
theorem ip_options_widen_host_addresses :
    (∀ ip, networkFor ip = ⟨ip, if isIPv4 ip then cidrMask 32 32 else cidrMask 128 128⟩) ∧
    cidrMask 32 32 = [255, 255, 255, 255] ∧
    cidrMask 128 128 = List.replicate 16 255 ∧
    (∀ ip e, WithPermittedIP ip e = .done { e with permittedIPRanges := [networkFor ip] }) ∧
    (∀ ip e, AddPermittedIP ip e = .done { e with permittedIPRanges := e.permittedIPRanges ++ [networkFor ip] }) ∧
    (∀ ip e, WithExcludedIP ip e = .done { e with excludedIPRanges := [networkFor ip] }) ∧
    (∀ ip e, AddExcludedIP ip e = .done { e with excludedIPRanges := e.excludedIPRanges ++ [networkFor ip] }) ∧
    (∀ l e e', WithPermittedIPsOrCIDRs l e = .done e' →
      ∀ i x ip, l.get? i = some x → goParseCIDR x = none → goParseIP x = some ip →
        e'.permittedIPRanges.get? i = some (networkFor ip)) ∧
    (∀ l e e', WithExcludedIPsOrCIDRs l e = .done e' →
      ∀ i x ip, l.get? i = some x → goParseCIDR x = none → goParseIP x = some ip →
        e'.excludedIPRanges.get? i = some (networkFor ip)) ∧
    (∀ l e x, x ∈ l → goParseCIDR x = none → goParseIP x = none →
      ∃ m, WithPermittedIPsOrCIDRs l e = .failed e m) ∧
    (∀ l e x, x ∈ l → goParseCIDR x = none → goParseIP x = none →
      ∃ m, WithExcludedIPsOrCIDRs l e = .failed e m) := by
  refine ⟨?_, by decide, by decide, ?_, ?_, ?_, ?_, ?_, ?_, ?_, ?_⟩
  · intro ip
    unfold networkFor
    by_cases h : isIPv4 ip <;> simp [h]
  · intro ip e; rfl
  · intro ip e; rfl
  · intro ip e
    unfold WithExcludedIP networkFor
    by_cases h : isIPv4 ip <;> simp [h]
  · intro ip e
    unfold AddExcludedIP networkFor
    by_cases h : isIPv4 ip <;> simp [h]
  · intro l e e' hdone i x ip hi hc hip
    unfold WithPermittedIPsOrCIDRs at hdone
    cases hv : normalizeEach ipOrCIDRToResult (fun x _ => permittedIPorCIDRMsg x) l with
    | panicked => rw [hv] at hdone; cases hdone
    | error m => rw [hv] at hdone; cases hdone
    | ok v =>
      rw [hv] at hdone
      cases hdone
      obtain ⟨w, hw1, hw2⟩ := normalizeEach_ok_get _ _ l v hv i x hi
      unfold ipOrCIDRToResult at hw2
      rw [hc, hip] at hw2
      cases hw2
      simpa using hw1
  · intro l e e' hdone i x ip hi hc hip
    unfold WithExcludedIPsOrCIDRs at hdone
    cases hv : normalizeEach ipOrCIDRToResult (fun x _ => excludedIPorCIDRMsg x) l with
    | panicked => rw [hv] at hdone; cases hdone
    | error m => rw [hv] at hdone; cases hdone
    | ok v =>
      rw [hv] at hdone
      cases hdone
      obtain ⟨w, hw1, hw2⟩ := normalizeEach_ok_get _ _ l v hv i x hi
      unfold ipOrCIDRToResult at hw2
      rw [hc, hip] at hw2
      cases hw2
      simpa using hw1
  · intro l e x hmem hc hip
    have hx : ipOrCIDRToResult x = .error [] := by
      unfold ipOrCIDRToResult; rw [hc, hip]
    obtain ⟨m, hm⟩ := normalizeEach_error_of_mem _ (fun x _ => permittedIPorCIDRMsg x)
      ipOrCIDRToResult_ne_panicked l x [] hmem hx
    refine ⟨m, ?_⟩
    unfold WithPermittedIPsOrCIDRs
    rw [hm]
  · intro l e x hmem hc hip
    have hx : ipOrCIDRToResult x = .error [] := by
      unfold ipOrCIDRToResult; rw [hc, hip]
    obtain ⟨m, hm⟩ := normalizeEach_error_of_mem _ (fun x _ => excludedIPorCIDRMsg x)
      ipOrCIDRToResult_ne_panicked l x [] hmem hx
    refine ⟨m, ?_⟩
    unfold WithExcludedIPsOrCIDRs
    rw [hm]

/-- Witness for C6: the entry `10.1.2.3` of a permitted IPs-or-CIDRs list
is stored as the host-only `/32` network, and the whole operation fails on
the unparseable entry `zzz`. -/
theorem ip_options_widen_host_addresses_witness :
    ({ emptyEngine with
        permittedIPRanges := [networkFor (v4Mapped 10 1 2 3)] } : NamePolicyEngine).permittedIPRanges.get? 0 =
      some (networkFor (v4Mapped 10 1 2 3)) ∧
    (∃ m, WithPermittedIPsOrCIDRs ["zzz".toList] emptyEngine = .failed emptyEngine m) :=
  ⟨ip_options_widen_host_addresses.2.2.2.2.2.2.2.1 ["10.1.2.3".toList] emptyEngine
      { emptyEngine with permittedIPRanges := [networkFor (v4Mapped 10 1 2 3)] }
      (by decide) 0 "10.1.2.3".toList (v4Mapped 10 1 2 3) (by decide) (by decide) (by decide),
    ip_options_widen_host_addresses.2.2.2.2.2.2.2.2.2.1 ["zzz".toList] emptyEngine
      "zzz".toList (by decide) (by decide) (by decide)⟩

/-! ### String lemmas for normalization proofs -/

theorem goToLowerChar_eq_self_of_allowed (c : Char) (h : idnaAllowedChar c = true) :
    goToLowerChar c = c := by
  unfold goToLowerChar
  split <;> simp_all [idnaAllowedChar]

theorem goIsSpace_eq_false_of_allowed (c : Char) (h : idnaAllowedChar c = true) :
    goIsSpace c = false := by
  unfold goIsSpace
  split
  any_goals simp_all [idnaAllowedChar]
  refine ⟨⟨⟨?_, ?_⟩, ?_⟩, ?_⟩ <;> (rintro rfl; revert h; decide)

theorem allowed_ne_star (c : Char) (h : idnaAllowedChar c = true) : c ≠ '*' := by
  rintro rfl
  simp [idnaAllowedChar] at h

theorem goToLower_eq_self (t : List Char) (h : ∀ c ∈ t, idnaAllowedChar c = true) :
    goToLower t = t := by
  unfold goToLower
  induction t with
  | nil => rfl
  | cons a l ih =>
    simp only [List.map_cons]
    rw [goToLowerChar_eq_self_of_allowed a (h a (by simp)), ih (fun c hc => h c (by simp [hc]))]

theorem dropWhile_eq_self_of_none (p : Char → Bool) (t : List Char)
    (h : ∀ c ∈ t, p c = false) : t.dropWhile p = t := by
  cases t with
  | nil => rfl
  | cons a l => simp [List.dropWhile_cons, h a (by simp)]

theorem goTrimSpace_eq_self (t : List Char) (h : ∀ c ∈ t, idnaAllowedChar c = true) :
    goTrimSpace t = t := by
  unfold goTrimSpace
  rw [dropWhile_eq_self_of_none _ _ (fun c hc => goIsSpace_eq_false_of_allowed c (h c hc))]
  rw [dropWhile_eq_self_of_none _ _ (fun c hc =>
    goIsSpace_eq_false_of_allowed c (h c (List.mem_reverse.mp hc)))]
  exact List.reverse_reverse t

theorem goLastIndexChar_nonneg_iff (c : Char) :
    ∀ s : List Char, 0 ≤ goLastIndexChar s c ↔ c ∈ s := by
  intro s
  induction s with
  | nil => simp [goLastIndexChar]
  | cons a l ih =>
    simp only [goLastIndexChar]
    split
    next h =>
      constructor
      · intro _; exact List.mem_cons_of_mem a (ih.mp h)
      · intro _; omega
    next h =>
      split
      next ha => simp [ha]
      next ha =>
        constructor
        · intro hx; omega
        · intro hx
          rcases List.mem_cons.mp hx with h1 | h2
          · exact absurd h1.symm ha
          · exact absurd (ih.mpr h2) h

theorem goLastIndexChar_pos_iff (c : Char) :
    ∀ s : List Char, 0 < goLastIndexChar s c ↔ c ∈ s.drop 1 := by
  intro s
  cases s with
  | nil => simp [goLastIndexChar]
  | cons a l =>
    simp only [goLastIndexChar, List.drop_one, List.tail_cons]
    split
    next h =>
      constructor
      · intro _; exact (goLastIndexChar_nonneg_iff c l).mp h
      · intro _; omega
    next h =>
      constructor
      · intro hx
        split at hx <;> omega
      · intro hx
        exact absurd ((goLastIndexChar_nonneg_iff c l).mpr hx) h

theorem goStartsWith_star_dot_iff (n : List Char) :
    goStartsWith n ['*', '.'] = true ↔ ∃ r, n = '*' :: '.' :: r := by
  cases n with
  | nil => simp [goStartsWith]
  | cons a l =>
    cases l with
    | nil => simp [goStartsWith]
    | cons b r =>
      constructor
      · intro h
        simp only [goStartsWith, Bool.and_eq_true, decide_eq_true_eq] at h
        exact ⟨r, by rw [h.1, h.2.1]⟩
      · rintro ⟨r', hr⟩
        cases hr
        simp [goStartsWith]

theorem normDNS_ok_inversion (s t : List Char)
    (h : normalizeAndValidateDNSDomainConstraint s = .ok t) :
    goToLower (goTrimSpace s) ≠ [] ∧
    goContains (goToLower (goTrimSpace s)) ['.', '.'] = false ∧
    ¬(0 < goLastIndexChar (goToLower (goTrimSpace s)) '*') ∧
    t = (if goStartsWith (goToLower (goTrimSpace s)) ['*', '.'] = true then
          (goToLower (goTrimSpace s)).drop 1
        else goToLower (goTrimSpace s)) ∧
    t.all idnaAllowedChar = true ∧
    (domainToReverseLabels t).isSome = true := by
  simp only [normalizeAndValidateDNSDomainConstraint] at h
  split_ifs at h <;> try simp at h
  all_goals
    (rename_i hne hdd h3 h4 h5 hsw
     split at h <;> try simp at h
     next n2 heq =>
       split_ifs at h <;> try simp at h
       next hdtrl =>
         obtain ⟨hall, rfl⟩ := (idnaLookupToASCII_ok_iff _ _).mp heq
         cases h
         refine ⟨by simpa using hne, by simpa using hdd, h5, ?_, hall, hdtrl⟩
         simp [hsw])

theorem goContains_tail_false (a : Char) (l sub : List Char)
    (h : goContains (a :: l) sub = false) : goContains l sub = false := by
  have he : goContains (a :: l) sub = (goStartsWith (a :: l) sub || goContains l sub) := by
    simp [goContains]
  rw [he] at h
  exact (Bool.or_eq_false_iff.mp h).2

/-! ### C5 -/

/-- C5: DNS-domain constraint normalization is idempotent — whenever it
accepts an input with result `t`, normalizing `t` again succeeds and
returns `t` unchanged. -/
theorem normalizeDNSDomainConstraint_idempotent (s t : List Char)
    (h : normalizeAndValidateDNSDomainConstraint s = .ok t) :
    normalizeAndValidateDNSDomainConstraint t = .ok t := by
  obtain ⟨hne, hdd, _, htdef, hall, hdtrl⟩ := normDNS_ok_inversion s t h
  have hallmem : ∀ c ∈ t, idnaAllowedChar c = true := by
    simpa [List.all_eq_true] using hall
  have htl : goToLower (goTrimSpace t) = t := by
    rw [goTrimSpace_eq_self t hallmem, goToLower_eq_self t hallmem]
  have hstar : '*' ∉ t := fun hmem => allowed_ne_star '*' (hallmem '*' hmem) rfl
  have htne : t ≠ [] := by
    by_cases hsw : goStartsWith (goToLower (goTrimSpace s)) ['*', '.'] = true
    · obtain ⟨r, hr⟩ := (goStartsWith_star_dot_iff _).mp hsw
      rw [if_pos hsw, hr] at htdef
      simp [htdef]
    · rw [if_neg hsw] at htdef
      rw [htdef]
      exact hne
  have htdd : goContains t ['.', '.'] = false := by
    by_cases hsw : goStartsWith (goToLower (goTrimSpace s)) ['*', '.'] = true
    · obtain ⟨r, hr⟩ := (goStartsWith_star_dot_iff _).mp hsw
      rw [if_pos hsw, hr] at htdef
      rw [hr] at hdd
      rw [htdef]
      simpa using goContains_tail_false _ _ _ hdd
    · rw [if_neg hsw] at htdef
      rw [htdef]
      exact hdd
  have hemp : t.isEmpty = false := by
    cases t with
    | nil => exact absurd rfl htne
    | cons a l => rfl
  have hhead : t.head? ≠ some '*' := by
    cases t with
    | nil => simp
    | cons a l =>
      intro hc
      have ha : a = '*' := by simpa using hc
      exact hstar (ha ▸ List.mem_cons_self a l)
  have h3' : ¬(t.head? = some '*' ∧ t.length = 1) := fun hc => hhead hc.1
  have h4' : ¬(t.head? = some '*' ∧ t.get? 1 ≠ some '.') := fun hc => hhead hc.1
  have hli : ¬(0 < goLastIndexChar t '*') := by
    rw [goLastIndexChar_pos_iff]
    intro hmem
    cases t with
    | nil => simp at hmem
    | cons a l => exact hstar (List.mem_cons_of_mem a (by simpa using hmem))
  have hsw' : goStartsWith t ['*', '.'] = false := by
    by_contra hb
    rw [Bool.not_eq_false] at hb
    obtain ⟨r, hr⟩ := (goStartsWith_star_dot_iff _).mp hb
    exact hstar (by simp [hr])
  have hidna : idnaLookupToASCII t = .ok t := (idnaLookupToASCII_ok_iff t t).mpr ⟨hall, rfl⟩
  simp [normalizeAndValidateDNSDomainConstraint, htl, hemp, htdd, h3', h4', hli, hsw',
    hidna, hdtrl]
  exact fun hc => absurd hc hhead

/-- Witness for C5: `example.com` normalizes to itself, so renormalizing
the result returns it unchanged. -/
theorem normalizeDNSDomainConstraint_idempotent_witness :
    normalizeAndValidateDNSDomainConstraint "example.com".toList = .ok "example.com".toList :=
  normalizeDNSDomainConstraint_idempotent "example.com".toList "example.com".toList (by decide)

/-! ### C4 amended -/

/-- C4 (amended): except for the single-character input `*` (where the
code panics instead of erroring, see the counterexample), a `*` occurring
anywhere other than as the very first character immediately followed by
`.` makes DNS-domain normalization return an error; and when an accepted
input begins with `*.`, the result is the input with the `*` dropped and
the leading `.` retained. -/
theorem dns_wildcard_handling :
    (∀ s, goToLower (goTrimSpace s) ≠ ['*'] →
      (('*' ∈ goToLower (goTrimSpace s) ∧
          goStartsWith (goToLower (goTrimSpace s)) ['*', '.'] = false) ∨
        '*' ∈ (goToLower (goTrimSpace s)).drop 1) →
      ∃ m, normalizeAndValidateDNSDomainConstraint s = .error m) ∧
    (∀ s t, normalizeAndValidateDNSDomainConstraint s = .ok t →
      goStartsWith (goToLower (goTrimSpace s)) ['*', '.'] = true →
      t = (goToLower (goTrimSpace s)).drop 1 ∧ goStartsWith t ['.'] = true) := by
  constructor
  · intro s hne1 hbad
    simp only [normalizeAndValidateDNSDomainConstraint]
    split_ifs with h1 h2 h3 h4 h5 h6
    · exact ⟨_, rfl⟩
    · exact ⟨_, rfl⟩
    · -- the panic branch: the trimmed input would have to be exactly `*`
      exfalso
      obtain ⟨hh, hl⟩ := h3
      cases hn : goToLower (goTrimSpace s) with
      | nil => rw [hn] at hh; simp at hh
      | cons a l =>
        rw [hn] at hh hl
        simp at hh hl
        exact hne1 (by rw [hn, hh, hl])
    · exact ⟨_, rfl⟩
    · exact ⟨_, rfl⟩
    · -- the wildcard-strip branch: `*.`-prefixed, so only a second `*`
      -- could be misplaced, and that was caught by the LastIndex check
      exfalso
      rcases hbad with ⟨_, hswf⟩ | hm
      · exact absurd h6 (by simp [hswf])
      · exact h5 ((goLastIndexChar_pos_iff '*' _).mpr hm)
    · exfalso
      rcases hbad with ⟨hm, hswf⟩ | hm
      · have hnd : '*' ∉ (goToLower (goTrimSpace s)).drop 1 := by
          intro hc
          exact h5 ((goLastIndexChar_pos_iff '*' _).mpr hc)
        cases hn : goToLower (goTrimSpace s) with
        | nil => rw [hn] at hm; simp at hm
        | cons a l =>
          rw [hn] at hm hnd h3 h4 hswf
          simp only [List.drop_one, List.tail_cons] at hnd
          have ha : a = '*' := by
            rcases List.mem_cons.mp hm with h | h
            · exact h.symm
            · exact absurd h hnd
          cases l with
          | nil =>
            exact h3 ⟨by simp [ha], by simp⟩
          | cons b r =>
            have hb : b = '.' := by
              by_contra hbne
              exact h4 ⟨by simp [ha], by simpa using hbne⟩
            rw [ha, hb] at hswf
            simp [goStartsWith] at hswf
      · exact h5 ((goLastIndexChar_pos_iff '*' _).mpr hm)
  · intro s t h hsw
    obtain ⟨_, _, _, htdef, _, _⟩ := normDNS_ok_inversion s t h
    rw [if_pos hsw] at htdef
    obtain ⟨r, hr⟩ := (goStartsWith_star_dot_iff _).mp hsw
    refine ⟨htdef, ?_⟩
    rw [htdef, hr]
    simp [goStartsWith]

/-- Witness for C4: `a*b` (misplaced wildcard) is rejected with an error,
and the accepted `*.example.com` normalizes to `.example.com`, the input
with the `*` dropped and the `.` retained. -/
theorem dns_wildcard_handling_witness :
    (∃ m, normalizeAndValidateDNSDomainConstraint "a*b".toList = .error m) ∧
    (".example.com".toList = (goToLower (goTrimSpace "*.example.com".toList)).drop 1 ∧
      goStartsWith ".example.com".toList ['.'] = true) :=
  ⟨dns_wildcard_handling.1 "a*b".toList (by decide) (by decide),
    dns_wildcard_handling.2 "*.example.com".toList ".example.com".toList
      (by decide) (by decide)⟩

theorem normEmail_ok_mailbox_inversion (s t : List Char)
    (h : normalizeAndValidateEmailConstraint s = .ok t)
    (hat : goContains (goToLower (goTrimSpace s)) ['@'] = true)
    (hh : (goToLower (goTrimSpace s)).head? ≠ some '@') :
    ∃ mb dA, parseRFC2821Mailbox (goToLower (goTrimSpace s)) = some mb ∧
      idnaLookupToASCII mb.domainPart = .ok dA ∧ t = mb.localPart ++ '@' :: dA := by
  simp only [normalizeAndValidateEmailConstraint] at h
  split_ifs at h <;> try simp at h
  all_goals (first | exact absurd (by assumption) hh | skip)
  all_goals (split at h <;> try simp at h)
  rename_i a l heq
  rw [heq] at hat hh h ⊢
  split_ifs at h <;> try simp at h
  all_goals (first | exact absurd hat (by assumption) | skip)
  split at h <;> try simp at h
  rename_i mb heq2
  split at h <;> try simp at h
  rename_i dA heq3
  split_ifs at h <;> try simp at h
  exact ⟨mb, dA, heq2, heq3, h.symm⟩

theorem parseRFC2821Mailbox_local (u : List Char) (mb : Mailbox)
    (h : parseRFC2821Mailbox u = some mb) :
    mb.localPart = u.takeWhile (fun c => c != '@') := by
  simp only [parseRFC2821Mailbox] at h
  split at h
  · cases h
  · split_ifs at h <;> first | (cases h; rfl) | cases h

theorem goToLowerChar_bne_at (c : Char) : (goToLowerChar c != '@') = (c != '@') := by
  unfold goToLowerChar
  split <;> simp_all

/-! ### C2 amended -/

/-- C2 (amended): for a full-mailbox constraint (one whose trimmed,
lowercased form contains an `@` not in first position), the local part of
the normalized result is the as-written local part with ASCII uppercase
lowered — the whole constraint is lowercased before the mailbox is split,
so case is not preserved (see the counterexample), but nothing else of
the local part changes. -/
theorem email_constraint_local_part_only_lowercased (s t : List Char)
    (hok : normalizeAndValidateEmailConstraint s = .ok t)
    (hat : goContains (goToLower (goTrimSpace s)) ['@'] = true)
    (hh : (goToLower (goTrimSpace s)).head? ≠ some '@') :
    localPartOf t = localPartOf (goToLower (goTrimSpace s)) ∧
    localPartOf t = goToLower (localPartOf (goTrimSpace s)) := by
  obtain ⟨mb, dA, hmb, _, ht⟩ := normEmail_ok_mailbox_inversion s t hok hat hh
  have hlocal : mb.localPart = (goToLower (goTrimSpace s)).takeWhile (fun c => c != '@') :=
    parseRFC2821Mailbox_local _ _ hmb
  have hmem : ∀ c ∈ mb.localPart, (c != '@') = true := by
    rw [hlocal]
    intro c hc
    exact @List.mem_takeWhile_imp Char (fun x => x != '@') (goToLower (goTrimSpace s)) c hc
  have h1 : localPartOf t = mb.localPart := by
    rw [ht]
    unfold localPartOf
    rw [List.takeWhile_append_of_pos hmem]
    simp
  refine ⟨by rw [h1, hlocal]; rfl, ?_⟩
  rw [h1, hlocal]
  unfold goToLower localPartOf
  have hp : ((fun c => c != '@') ∘ goToLowerChar) = (fun c => c != '@') := by
    funext c
    simp only [Function.comp_apply]
    exact goToLowerChar_bne_at c
  rw [List.takeWhile_map, hp]

/-- Witness for C2 (amended): the normalized local part of
`Alice@example.com` is the lowercased as-written local part. -/
theorem email_constraint_local_part_only_lowercased_witness :
    localPartOf "alice@example.com".toList =
      localPartOf (goToLower (goTrimSpace "Alice@example.com".toList)) ∧
    localPartOf "alice@example.com".toList =
      goToLower (localPartOf (goTrimSpace "Alice@example.com".toList)) :=
  email_constraint_local_part_only_lowercased "Alice@example.com".toList
    "alice@example.com".toList (by decide) (by decide) (by decide)
